import Mathlib

/-!
Shallow embedding of the Rice-Leaf-Doctor inference server (`app.py`) and
proofs about its request handlers.

The repository is a thin Flask app: a `GET /` liveness route and a
`POST /predict` route that decodes an uploaded image, squash-resizes it to
224x224 RGB, lazily loads a Keras model into a process-global handle,
takes the argmax of the model's prediction vector, and tries to attach a
Grad-CAM heatmap encoded as a base64 JPEG, falling back to an empty string
when that visualization step raises.

External-library computations (PIL decoding, TensorFlow inference and
gradients, matplotlib colormapping, JPEG encoding) are modelled as opaque
functions packaged in an `Env`; arrays are modelled by their shape plus an
opaque content tag, and Python floats are idealized as rationals.  A Python
exception is an `Except.error`; the Flask framework turns an uncaught
exception into an HTTP 500, so `Except.error` out of a handler models a 500.
Effects (image decoding, model loading, inference) are recorded in a trace
so that "the handler did not touch X" is a provable statement.
-/

set_option autoImplicit false

namespace RiceApp

/-- A Python exception, reduced to its message. -/
abbrev PyExn := String

/-- `MODEL_PATH` from app.py line 13. -/
def MODEL_PATH : String := "zambali_rice_efficientnet.h5"

/-- `LAST_CONV_LAYER_NAME` from app.py line 14. -/
def LAST_CONV_LAYER_NAME : String := "top_activation"

/-- The fixed ordered label list from app.py lines 16-24. -/
def LABELS : List String :=
  [ "Bacterial Leaf Blight"
  , "Brown Spot"
  , "Healthy Rice Leaf"
  , "Leaf Blast"
  , "Leaf Scald"
  , "NOT_A_RICE_LEAF"
  , "Sheath Blight" ]

/-- A PIL image: its metadata (size and color mode) plus an opaque content
tag standing for the pixel data, which only external library code inspects. -/
structure Image where
  width : Nat
  height : Nat
  mode : String
  content : Nat
deriving DecidableEq, Repr

/-- `Image.convert('RGB')` (app.py line 85): sets the color mode to RGB. -/
def convertRGB (img : Image) : Image :=
  { img with mode := "RGB" }

/-- `Image.resize((w, h))` (app.py line 88): sets the pixel dimensions to
exactly `w` by `h`, squashing without regard to the original aspect ratio. -/
def PILresize (img : Image) (w h : Nat) : Image :=
  { img with width := w, height := h }

/-- A numpy / TF array, modelled by its shape plus an opaque content tag. -/
structure NpArray where
  shape : List Nat
  content : Nat
deriving DecidableEq, Repr

/-- Channel count of a PIL color mode, as `img_to_array` produces it. -/
def channelsOfMode : String → Nat
  | "1" => 1
  | "L" => 1
  | "LA" => 2
  | "RGBA" => 4
  | "CMYK" => 4
  | _ => 3

/-- `tf.keras.utils.img_to_array` (app.py line 91): a HxWxC array. -/
def img_to_array (img : Image) : NpArray :=
  ⟨[img.height, img.width, channelsOfMode img.mode], img.content⟩

/-- `np.expand_dims(a, axis=0)` (app.py line 94): prepends a batch axis. -/
def expand_dims (a : NpArray) : NpArray :=
  ⟨1 :: a.shape, a.content⟩

/-- The whole preprocessing pipeline of `/predict` (app.py lines 85-94):
convert to RGB, squash-resize to 224x224, to array, add batch axis. -/
def preprocess (img : Image) : NpArray :=
  expand_dims (img_to_array (PILresize (convertRGB img) 224 224))

/-- The loaded Keras model: an opaque handle whose only observable is its
`predict` method, a batch of arrays in, a batch of class-score vectors out. -/
structure Model where
  predict : NpArray → List (List ℚ)

/-- The external world: every library call out of app.py that can observe
pixel data, touch the filesystem, or raise.  `decodeImage` is
`PIL.Image.open(file.stream)` (line 85); `loadModel` is
`tf.keras.models.load_model` (line 35); `gradcam` is `get_gradcam_heatmap`
(lines 40-56), whose body is entirely TensorFlow graph and gradient calls;
`renderHeatmap` is `generate_heatmap_image` (lines 58-70) together with the
JPEG save (lines 113-114), all matplotlib / keras-utils / PIL calls. -/
structure Env where
  decodeImage : List Nat → Except PyExn Image
  loadModel : Except PyExn Model
  gradcam : NpArray → Model → String → Nat → Except PyExn NpArray
  renderHeatmap : NpArray → NpArray → Except PyExn (List Nat)

/-- The process-global mutable state: the `model` global of app.py line 27,
`None` until the first successful `get_model` call. -/
structure AppState where
  model : Option Model

/-- Observable side effects of a request, recorded as a trace. -/
inductive Effect where
  | decode
  | loadModel
  | inference
deriving DecidableEq, Repr

/-- `get_model` (app.py lines 30-37): loads the model into the global on
first use, returns the cached handle afterwards.  A load failure (e.g. a
missing model file) raises and leaves the global untouched, since the
assignment happens only after `load_model` returns. -/
def get_model (env : Env) (st : AppState) :
    Except PyExn Model × AppState × List Effect :=
  match st.model with
  | some m => (.ok m, st, [])
  | none =>
    match env.loadModel with
    | .error e => (.error e, st, [.loadModel])
    | .ok m => (.ok m, ⟨some m⟩, [.loadModel])

/-- A JSON value as produced by `jsonify`: only strings and numbers occur. -/
inductive JValue where
  | str (s : String)
  | num (q : ℚ)
deriving DecidableEq, Repr

/-- An HTTP response: status code and JSON object body as an ordered list of
key-value pairs. -/
structure HttpResponse where
  status : Nat
  body : List (String × JValue)
deriving DecidableEq, Repr

/-- Field lookup in a JSON object body. -/
def getField (body : List (String × JValue)) (k : String) : Option JValue :=
  (body.find? (fun kv => kv.1 == k)).map (fun kv => kv.2)

/-- The base64 alphabet used by `base64.b64encode`. -/
def b64Alphabet : List Char :=
  "ABCDEFGHIJKLMNOPQRSTUVWXYZabcdefghijklmnopqrstuvwxyz0123456789+/".toList

/-- Digit of the base64 alphabet. -/
def b64Char (n : Nat) : Char := b64Alphabet.getD n 'A'

/-- `base64.b64encode` (app.py line 115) on a byte list, RFC 4648 with
padding. -/
def base64encode : List Nat → String
  | [] => ""
  | [a] =>
    String.mk [b64Char (a / 4), b64Char (a % 4 * 16)] ++ "=="
  | [a, b] =>
    String.mk [b64Char (a / 4), b64Char (a % 4 * 16 + b / 16),
               b64Char (b % 16 * 4)] ++ "="
  | a :: b :: c :: rest =>
    String.mk [b64Char (a / 4), b64Char (a % 4 * 16 + b / 16),
               b64Char (b % 16 * 4 + c / 64), b64Char (c % 64)]
      ++ base64encode rest

/-- Round the fraction `num / den` to an integer, ties to even, as Python
float formatting rounds; computed on the integer numerator and denominator. -/
def roundHalfEvenDiv (num : Int) (den : Nat) : Int :=
  let f := Int.fdiv num den
  let r := num - f * den
  if 2 * r < (den : Int) then f
  else if (den : Int) < 2 * r then f + 1
  else if f % 2 = 0 then f else f + 1

/-- Python's `f"..."` percent formatting with two decimals, `{x:.2%}`
(app.py line 122): multiply by 100, round to two decimal places, append a
percent sign. -/
def formatPercent (q : ℚ) : String :=
  let n : Int := roundHalfEvenDiv (q.num * 10000) q.den
  let sign := if n < 0 then "-" else ""
  let m := n.natAbs
  let ip := m / 100
  let fp := m % 100
  sign ++ toString ip ++ "." ++ (if fp < 10 then "0" else "") ++ toString fp ++ "%"

/-- Strict comparison on scores, as a boolean, mirroring the float
comparison `np.argmax` performs. -/
def qlt (a b : ℚ) : Bool := Rat.blt a b

/-- Binary maximum on scores built on the same comparison. -/
def qmax (a b : ℚ) : ℚ := if qlt a b then b else a

/-- Scan for the first index holding the running maximum, together with that
maximum; strict comparison keeps the earliest maximal index, as `np.argmax`
does. -/
def argmaxAux : List ℚ → Nat → Nat → ℚ → Nat × ℚ
  | [], _, best, bv => (best, bv)
  | x :: xs, i, best, bv =>
    if qlt bv x then argmaxAux xs (i + 1) i x
    else argmaxAux xs (i + 1) best bv

/-- `np.argmax` (app.py line 103): first index of the maximum entry; raises
on an empty array, modelled as `none`. -/
def np_argmax? : List ℚ → Option Nat
  | [] => none
  | x :: xs => some (argmaxAux xs 1 0 x).1

/-- The maximum entry of a score vector (0 on the empty vector, which the
handler never reaches). -/
def listMax : List ℚ → ℚ
  | [] => 0
  | x :: xs => xs.foldl qmax x

/-- A `POST /predict` request: its multipart files, keyed field name to raw
bytes. -/
structure Request where
  files : List (String × List Nat)
deriving DecidableEq, Repr

/-- The `/predict` handler (app.py lines 77-124).  Returns the framework
result (an HTTP response, or an uncaught exception that Flask will turn
into a 500), the new global state, and the effect trace. -/
def predict (env : Env) (st : AppState) (req : Request) :
    Except PyExn HttpResponse × AppState × List Effect :=
  match req.files.find? (fun kv => kv.1 == "image") with
  | none => (.ok ⟨400, [("error", .str "No image provided")]⟩, st, [])
  | some file =>
    match env.decodeImage file.2 with
    | .error e => (.error e, st, [.decode])
    | .ok imgRaw =>
      let img := PILresize (convertRGB imgRaw) 224 224
      let img_array := img_to_array img
      let img_batch := expand_dims img_array
      match get_model env st with
      | (.error e, st2, effs) => (.error e, st2, .decode :: effs)
      | (.ok current_model, st2, effs) =>
        let preds := current_model.predict img_batch
        match preds.get? 0 with
        | none =>
          (.error "IndexError: index 0 is out of bounds", st2,
           .decode :: effs ++ [.inference])
        | some p0 =>
          match np_argmax? p0 with
          | none =>
            (.error "ValueError: attempt to get argmax of an empty sequence",
             st2, .decode :: effs ++ [.inference])
          | some pred_idx =>
            match p0.get? pred_idx with
            | none =>
              (.error "IndexError: index is out of bounds", st2,
               .decode :: effs ++ [.inference])
            | some confidence =>
              match LABELS.get? pred_idx with
              | none =>
                (.error "IndexError: list index out of range", st2,
                 .decode :: effs ++ [.inference])
              | some label =>
                let img_str :=
                  match env.gradcam img_batch current_model
                      LAST_CONV_LAYER_NAME pred_idx with
                  | .error _ => ""
                  | .ok heatmap =>
                    match env.renderHeatmap img_array heatmap with
                    | .error _ => ""
                    | .ok jpegBytes => base64encode jpegBytes
                (.ok ⟨200,
                  [ ("label", .str label)
                  , ("confidence", .str (formatPercent confidence))
                  , ("heatmap_image", .str img_str) ]⟩,
                 st2, .decode :: effs ++ [.inference])

/-- Modelled from the spec: the repository's second, near-identical copy of
the source file is not present under `src/`; per the spec it differs from
`app.py` only in loading the model eagerly at process start instead of
lazily on first request.  Its `/predict` body is therefore the same
pipeline, reading the already-loaded model handle directly. -/
def predict_eager (env : Env) (m : Model) (req : Request) :
    Except PyExn HttpResponse × List Effect :=
  match req.files.find? (fun kv => kv.1 == "image") with
  | none => (.ok ⟨400, [("error", .str "No image provided")]⟩, [])
  | some file =>
    match env.decodeImage file.2 with
    | .error e => (.error e, [.decode])
    | .ok imgRaw =>
      let img := PILresize (convertRGB imgRaw) 224 224
      let img_array := img_to_array img
      let img_batch := expand_dims img_array
      let preds := m.predict img_batch
      match preds.get? 0 with
      | none =>
        (.error "IndexError: index 0 is out of bounds",
         [.decode, .inference])
      | some p0 =>
        match np_argmax? p0 with
        | none =>
          (.error "ValueError: attempt to get argmax of an empty sequence",
           [.decode, .inference])
        | some pred_idx =>
          match p0.get? pred_idx with
          | none =>
            (.error "IndexError: index is out of bounds",
             [.decode, .inference])
          | some confidence =>
            match LABELS.get? pred_idx with
            | none =>
              (.error "IndexError: list index out of range",
               [.decode, .inference])
            | some label =>
              let img_str :=
                match env.gradcam img_batch m LAST_CONV_LAYER_NAME pred_idx with
                | .error _ => ""
                | .ok heatmap =>
                  match env.renderHeatmap img_array heatmap with
                  | .error _ => ""
                  | .ok jpegBytes => base64encode jpegBytes
              (.ok ⟨200,
                [ ("label", .str label)
                , ("confidence", .str (formatPercent confidence))
                , ("heatmap_image", .str img_str) ]⟩,
               [.decode, .inference])

/-- The `heatmap_image` string computed by the try/except of app.py lines
108-118, as a function of the environment, model, decoded image, and
predicted index: the base64 JPEG on success, `""` when either the Grad-CAM
computation or the overlay rendering raises. -/
def gradcamString (env : Env) (m : Model) (img : Image) (i : Nat) : String :=
  match env.gradcam (preprocess img) m LAST_CONV_LAYER_NAME i with
  | .error _ => ""
  | .ok heatmap =>
    match env.renderHeatmap (img_to_array (PILresize (convertRGB img) 224 224))
        heatmap with
    | .error _ => ""
    | .ok jpegBytes => base64encode jpegBytes

/-- The body of the `GET /` response (app.py line 75). -/
def homeBody : String := "Rice Doctor API is Running! Send POST requests to /predict"

/-- The `GET /` handler (app.py lines 73-75), threaded through the global
state to make "does not touch the model handle" a statement. -/
def home (st : AppState) : String × AppState × List Effect :=
  (homeBody, st, [])

/-! Concrete fixtures used by witnesses and counterexamples. -/

/-- A concrete model returning a fixed seven-class score vector. -/
def testModel : Model :=
  ⟨fun _ => [[mkRat 1 10, mkRat 9 10, 0, 0, 0, 0, 0]]⟩

/-- A concrete decoded image: 640x480 RGBA. -/
def testImage : Image := ⟨640, 480, "RGBA", 7⟩

/-- A concrete request carrying an `image` multipart field. -/
def req0 : Request := ⟨[("image", [1, 2, 3])]⟩

/-- A concrete request with no `image` field. -/
def reqNoImage : Request := ⟨[("picture", [1])]⟩

/-- An environment whose Grad-CAM step always raises. -/
def testEnv : Env :=
  { decodeImage := fun _ => .ok testImage
  , loadModel := .ok testModel
  , gradcam := fun _ _ _ _ => .error "gradcam boom"
  , renderHeatmap := fun _ _ => .error "render boom" }

/-- An environment whose Grad-CAM step succeeds, agreeing with `testEnv` on
decoding and model loading. -/
def testEnvOk : Env :=
  { decodeImage := fun _ => .ok testImage
  , loadModel := .ok testModel
  , gradcam := fun _ _ _ _ => .ok ⟨[7, 7], 3⟩
  , renderHeatmap := fun _ _ => .ok [255, 216, 255] }

/-- An environment whose image decoding always raises. -/
def failDecodeEnv : Env :=
  { decodeImage := fun _ => .error "UnidentifiedImageError"
  , loadModel := .ok testModel
  , gradcam := fun _ _ _ _ => .error "gradcam boom"
  , renderHeatmap := fun _ _ => .error "render boom" }

/-- An environment whose model load always raises (missing model file). -/
def failLoadEnv : Env :=
  { decodeImage := fun _ => .ok testImage
  , loadModel := .error "OSError: No file or directory found at zambali_rice_efficientnet.h5"
  , gradcam := fun _ _ _ _ => .error "gradcam boom"
  , renderHeatmap := fun _ _ => .error "render boom" }

/-! Lemmas about the argmax scan. -/

/-- The boolean comparison agrees with the order on `ℚ`. -/
theorem qlt_iff (a b : ℚ) : qlt a b = true ↔ a < b := by
  rw [← Rat.not_le]
  show Rat.blt a b = true ↔ ¬(Rat.blt a b = false)
  simp

/-- The left argument is below the binary maximum. -/
theorem le_qmax_left (a b : ℚ) : a ≤ qmax a b := by
  unfold qmax
  cases hb : qlt a b
  · simp
  · simp [le_of_lt ((qlt_iff a b).mp hb)]

/-- The right argument is below the binary maximum. -/
theorem le_qmax_right (a b : ℚ) : b ≤ qmax a b := by
  unfold qmax
  cases hb : qlt a b
  · have : ¬a < b := fun hlt => by
      rw [(qlt_iff a b).mpr hlt] at hb
      exact Bool.noConfusion hb
    simp [le_of_not_lt this]
  · simp

/-- The running maximum returned by the scan is the fold of `qmax`. -/
theorem argmaxAux_snd : ∀ (xs : List ℚ) (i b : Nat) (v : ℚ),
    (argmaxAux xs i b v).2 = xs.foldl qmax v
  | [], _, _, _ => rfl
  | x :: xs, i, b, v => by
    simp only [argmaxAux, List.foldl]
    cases hb : qlt v x <;>
      simp only [hb, if_true, if_false, Bool.false_eq_true, qmax,
        argmaxAux_snd xs]

/-- The index returned by the scan stays below `i` plus the scanned length. -/
theorem argmaxAux_fst_lt : ∀ (xs : List ℚ) (i b : Nat) (v : ℚ),
    b < i → (argmaxAux xs i b v).1 < i + xs.length
  | [], i, b, v, h => by
    simpa [argmaxAux] using h
  | x :: xs, i, b, v, h => by
    simp only [argmaxAux, List.length_cons]
    cases hb : qlt v x
    · simp only [Bool.false_eq_true, if_false]
      have hrec := argmaxAux_fst_lt xs (i + 1) b v (Nat.lt_succ_of_lt h)
      omega
    · simp only [if_true]
      have hrec := argmaxAux_fst_lt xs (i + 1) i x (Nat.lt_succ_self i)
      omega

/-- The scan returns an index of the ambient list holding exactly the running
maximum it returns, provided the accumulator indexes correctly into the
ambient list. -/
theorem argmaxAux_get : ∀ (xs : List ℚ) (i b : Nat) (v : ℚ) (l : List ℚ),
    l.get? b = some v → (∀ j, xs.get? j = l.get? (i + j)) →
    l.get? (argmaxAux xs i b v).1 = some (argmaxAux xs i b v).2
  | [], _, _, _, _, hb, _ => by simpa [argmaxAux] using hb
  | x :: xs, i, b, v, l, hb, hj => by
    have hx : l.get? i = some x := by simpa using (hj 0).symm
    simp only [argmaxAux]
    cases hvx : qlt v x
    · simp only [Bool.false_eq_true, if_false]
      refine argmaxAux_get xs (i + 1) b v l hb (fun j => ?_)
      have h1 := hj (j + 1)
      have h2 : i + (j + 1) = i + 1 + j := by omega
      simpa [h2] using h1
    · simp only [if_true]
      refine argmaxAux_get xs (i + 1) i x l hx (fun j => ?_)
      have h1 := hj (j + 1)
      have h2 : i + (j + 1) = i + 1 + j := by omega
      simpa [h2] using h1

/-- The initial accumulator is below the fold of `qmax`. -/
theorem le_foldl_qmax_init : ∀ (xs : List ℚ) (v : ℚ), v ≤ xs.foldl qmax v
  | [], v => le_refl v
  | x :: xs, v =>
    le_trans (le_qmax_left v x) (le_foldl_qmax_init xs (qmax v x))

/-- Every member is below the fold of `qmax`. -/
theorem mem_le_foldl_qmax : ∀ (xs : List ℚ) (v y : ℚ), y ∈ xs →
    y ≤ xs.foldl qmax v
  | x :: xs, v, y, hy => by
    rcases List.mem_cons.mp hy with h | h
    · subst h
      exact le_trans (le_qmax_right v y) (le_foldl_qmax_init xs (qmax v y))
    · exact mem_le_foldl_qmax xs (qmax v x) y h

/-- Correctness of `np_argmax?`: on a nonempty vector it returns an in-bounds
index holding the maximum entry, which dominates every entry. -/
theorem np_argmax_spec (l : List ℚ) (k : Nat) (h : np_argmax? l = some k) :
    k < l.length ∧ l.get? k = some (listMax l) ∧ ∀ x ∈ l, x ≤ listMax l := by
  match l with
  | [] => exact absurd h (by simp [np_argmax?])
  | x :: xs =>
    have hk : k = (argmaxAux xs 1 0 x).1 := by
      simpa [np_argmax?] using h.symm
    subst hk
    refine ⟨?_, ?_, ?_⟩
    · have := argmaxAux_fst_lt xs 1 0 x Nat.one_pos
      simpa [Nat.add_comm] using this
    · have hget := argmaxAux_get xs 1 0 x (x :: xs) rfl (fun j => by
        have h2 : 1 + j = j + 1 := by omega
        simp [h2])
      rw [hget, argmaxAux_snd]
      rfl
    · intro y hy
      rcases List.mem_cons.mp hy with hh | hh
      · subst hh
        exact le_foldl_qmax_init xs y
      · exact mem_le_foldl_qmax xs x y hh

/-- The success branch of `/predict`, fully characterized: when the field is
present and decoding, model access, argmax, confidence indexing, and label
lookup all go through, the handler returns the 200 response built from the
argmax index, with the heatmap string produced by the Grad-CAM try/except. -/
theorem predict_reaches_success (env : Env) (st : AppState) (req : Request)
    (fl : String × List Nat) (img : Image) (m : Model) (st2 : AppState)
    (effs : List Effect) (p0 : List ℚ) (i : Nat) (c : ℚ) (lab : String)
    (hfind : req.files.find? (fun kv => kv.1 == "image") = some fl)
    (hdec : env.decodeImage fl.2 = .ok img)
    (hgm : get_model env st = (.ok m, st2, effs))
    (hp : (m.predict (preprocess img)).get? 0 = some p0)
    (hargmax : np_argmax? p0 = some i)
    (hc : p0.get? i = some c)
    (hlab : LABELS.get? i = some lab) :
    predict env st req =
      (.ok ⟨200,
        [ ("label", .str lab)
        , ("confidence", .str (formatPercent c))
        , ("heatmap_image", .str (gradcamString env m img i)) ]⟩,
       st2, .decode :: effs ++ [.inference]) := by
  simp only [preprocess] at hp
  rw [List.get?_eq_getElem?] at hp hc hlab
  simp [predict, gradcamString, preprocess, hfind, hdec, hgm, hp, hargmax,
    hc, hlab]

/-- Inversion of a 200 response: a success response of `/predict` can only
come from the last branch of the handler, so it determines the multipart
field, decoded image, model handle, prediction vector, argmax index,
confidence, label, response body, and effect trace. -/
theorem predict_ok_200_inv (env : Env) (st : AppState) (req : Request)
    (r : HttpResponse) (st2 : AppState) (effs : List Effect)
    (h : predict env st req = (.ok r, st2, effs)) (hs : r.status = 200) :
    ∃ fl imgRaw m effs0 p0 i c lab,
      req.files.find? (fun kv => kv.1 == "image") = some fl ∧
      env.decodeImage fl.2 = .ok imgRaw ∧
      get_model env st = (.ok m, st2, effs0) ∧
      (m.predict (preprocess imgRaw)).get? 0 = some p0 ∧
      np_argmax? p0 = some i ∧
      p0.get? i = some c ∧
      LABELS.get? i = some lab ∧
      r = ⟨200, [ ("label", .str lab)
                , ("confidence", .str (formatPercent c))
                , ("heatmap_image", .str (gradcamString env m imgRaw i)) ]⟩ ∧
      effs = .decode :: effs0 ++ [.inference] := by
  rcases hfind : req.files.find? (fun kv => kv.1 == "image") with _ | fl
  · simp only [predict, hfind] at h
    have hr := Except.ok.inj (congrArg (fun x => x.1) h)
    rw [← hr] at hs
    exact absurd hs (by decide)
  · rcases hdec : env.decodeImage fl.2 with e | imgRaw
    · simp only [predict, hfind, hdec] at h
      exact Except.noConfusion (congrArg (fun x => x.1) h)
    · rcases hgm : get_model env st with ⟨res, st2', effs0⟩
      rcases res with e | m
      · simp only [predict, hfind, hdec, hgm] at h
        exact Except.noConfusion (congrArg (fun x => x.1) h)
      · rcases hp : (m.predict (expand_dims (img_to_array
            (PILresize (convertRGB imgRaw) 224 224)))).get? 0 with _ | p0
        · simp only [predict, hfind, hdec, hgm, hp] at h
          exact Except.noConfusion (congrArg (fun x => x.1) h)
        · rcases hargmax : np_argmax? p0 with _ | i
          · simp only [predict, hfind, hdec, hgm, hp, hargmax] at h
            exact Except.noConfusion (congrArg (fun x => x.1) h)
          · rcases hc : p0.get? i with _ | c
            · simp only [predict, hfind, hdec, hgm, hp, hargmax, hc] at h
              exact Except.noConfusion (congrArg (fun x => x.1) h)
            · rcases hlab : LABELS.get? i with _ | lab
              · simp only [predict, hfind, hdec, hgm, hp, hargmax, hc,
                  hlab] at h
                exact Except.noConfusion (congrArg (fun x => x.1) h)
              · simp only [predict, hfind, hdec, hgm, hp, hargmax, hc,
                  hlab] at h
                have hst2 : st2' = st2 := congrArg (fun x => x.2.1) h
                subst hst2
                have hr := Except.ok.inj (congrArg (fun x => x.1) h)
                have heffs := congrArg (fun x => x.2.2) h
                refine ⟨fl, imgRaw, m, effs0, p0, i, c, lab, hfind, hdec,
                  rfl, by simpa only [preprocess] using hp, hargmax, hc,
                  hlab, ?_, heffs.symm⟩
                rw [← hr]
                simp only [gradcamString, preprocess]

/-- `get_model` only looks at `loadModel` in the environment. -/
theorem get_model_congr (e1 e2 : Env) (st : AppState)
    (h : e1.loadModel = e2.loadModel) :
    get_model e1 st = get_model e2 st := by
  cases hst : st.model <;> simp [get_model, hst, h]

/-- Claim C4: when the multipart form has no field named `image`, `/predict`
returns HTTP 400 with an `error` JSON body, the global state is untouched,
and no decoding, model loading, or inference effect occurs. -/
theorem predict_missing_image_field (env : Env) (st : AppState) (req : Request)
    (h : ∀ kv ∈ req.files, kv.1 ≠ "image") :
    predict env st req =
      (.ok ⟨400, [("error", JValue.str "No image provided")]⟩, st, []) := by
  have hfind : req.files.find? (fun kv => kv.1 == "image") = none := by
    rw [List.find?_eq_none]
    intro kv hkv
    simpa using h kv hkv
  simp [predict, hfind]

/-- Witness for C4 at a concrete fieldless request. -/
theorem predict_missing_image_field_witness :
    predict testEnv ⟨none⟩ reqNoImage =
      (.ok ⟨400, [("error", JValue.str "No image provided")]⟩, ⟨none⟩, []) :=
  predict_missing_image_field testEnv ⟨none⟩ reqNoImage (by decide)

/-- Claim C5: the model handle is initialized at most once.  A completed
`get_model` call leaves the global holding the returned handle; calling
again returns the same handle without reloading; when the global already
held a handle, that very handle is returned and nothing changes; loading
happens exactly on the `None` case. -/
theorem model_loaded_once (env : Env) (st : AppState) (m : Model)
    (st2 : AppState) (effs : List Effect)
    (h : get_model env st = (.ok m, st2, effs)) :
    st2.model = some m ∧
    get_model env st2 = (.ok m, st2, []) ∧
    (∀ m0, st.model = some m0 → m = m0 ∧ st2 = st ∧ effs = []) ∧
    (st.model = none →
      env.loadModel = .ok m ∧ st2 = ⟨some m⟩ ∧ effs = [.loadModel]) := by
  cases hst : st.model with
  | some m0 =>
    simp only [get_model, hst] at h
    have hm : m0 = m := Except.ok.inj (congrArg (fun x => x.1) h)
    have hst2 : st = st2 := congrArg (fun x => x.2.1) h
    have heffs : ([] : List Effect) = effs := congrArg (fun x => x.2.2) h
    subst hm
    subst hst2
    subst heffs
    refine ⟨hst, by simp [get_model, hst], ?_, ?_⟩
    · intro m1 hm1
      cases hm1
      exact ⟨rfl, rfl, rfl⟩
    · intro hn
      exact Option.noConfusion hn
  | none =>
    cases hl : env.loadModel with
    | error e => simp [get_model, hst, hl] at h
    | ok mm =>
      simp only [get_model, hst, hl] at h
      have hm : mm = m := Except.ok.inj (congrArg (fun x => x.1) h)
      have hst2 : (⟨some mm⟩ : AppState) = st2 := congrArg (fun x => x.2.1) h
      have heffs : ([Effect.loadModel] : List Effect) = effs :=
        congrArg (fun x => x.2.2) h
      subst hm
      subst hst2
      subst heffs
      refine ⟨rfl, by simp [get_model], ?_, fun _ => ⟨rfl, rfl, rfl⟩⟩
      intro m1 hm1
      exact Option.noConfusion hm1

/-- Witness for C5: first call on an empty global loads and caches. -/
theorem model_loaded_once_witness :
    (⟨some testModel⟩ : AppState).model = some testModel ∧
    get_model testEnv ⟨some testModel⟩ = (.ok testModel, ⟨some testModel⟩, []) ∧
    (∀ m0, (⟨none⟩ : AppState).model = some m0 →
      testModel = m0 ∧ (⟨some testModel⟩ : AppState) = ⟨none⟩ ∧
      ([.loadModel] : List Effect) = []) ∧
    ((⟨none⟩ : AppState).model = none →
      testEnv.loadModel = .ok testModel ∧
      (⟨some testModel⟩ : AppState) = ⟨some testModel⟩ ∧
      ([.loadModel] : List Effect) = [.loadModel]) :=
  model_loaded_once testEnv ⟨none⟩ testModel ⟨some testModel⟩ [.loadModel] rfl

/-- Claim C8: `GET /` returns the same static liveness string whatever the
state, leaves the state unchanged, and performs no effect. -/
theorem home_static (st st' : AppState) :
    (home st).1 = (home st').1 ∧ (home st).1 = homeBody ∧
    (home st).2.1 = st ∧ (home st).2.2 = [] :=
  ⟨rfl, rfl, rfl, rfl⟩

/-- Claim C9: whatever the uploaded image's dimensions and color mode, the
preprocessing pipeline of `/predict` converts it to RGB, squash-resizes it
to exactly 224x224 (both dimensions forced, aspect ratio not preserved),
and produces a batch of shape 1x224x224x3 for the model. -/
theorem preprocess_squashes (img : Image) :
    (convertRGB img).mode = "RGB" ∧
    (PILresize (convertRGB img) 224 224).width = 224 ∧
    (PILresize (convertRGB img) 224 224).height = 224 ∧
    preprocess img = ⟨[1, 224, 224, 3], img.content⟩ :=
  ⟨rfl, rfl, rfl, rfl⟩

/-- Claim C6: failures other than Grad-CAM ones are not caught: a decode
error, or a model-load error (missing model file) on a cold global, each
propagates out of `/predict` as an uncaught exception. -/
theorem unhandled_failures_propagate (env : Env) (st : AppState)
    (req : Request) (fl : String × List Nat)
    (hfind : req.files.find? (fun kv => kv.1 == "image") = some fl) :
    (∀ e, env.decodeImage fl.2 = .error e →
      predict env st req = (.error e, st, [.decode])) ∧
    (∀ e img, env.decodeImage fl.2 = .ok img → st.model = none →
      env.loadModel = .error e →
      predict env st req = (.error e, st, [.decode, .loadModel])) := by
  constructor
  · intro e hdec
    simp [predict, hfind, hdec]
  · intro e img hdec hst hload
    have hgm : get_model env st = (.error e, st, [.loadModel]) := by
      rw [get_model, hst, hload]
    simp [predict, hfind, hdec, hgm]

/-- Witness for C6: a concrete decode failure propagates unchanged. -/
theorem unhandled_failures_propagate_witness :
    predict failDecodeEnv ⟨none⟩ req0 =
      (.error "UnidentifiedImageError", ⟨none⟩, [Effect.decode]) :=
  (unhandled_failures_propagate failDecodeEnv ⟨none⟩ req0 ("image", [1, 2, 3])
    rfl).1 "UnidentifiedImageError" rfl

/-- Claim C10: for a nonempty prediction vector of length at most seven the
argmax index is a valid index into the seven-entry `LABELS`, and under
those bounds the label lookup in `/predict` cannot fail (the handler
reaches its success response); a vector longer than seven can drive the
lookup out of range. -/
theorem labels_index_in_bounds :
    (∀ p0 : List ℚ, 1 ≤ p0.length → p0.length ≤ 7 →
      ∃ i, np_argmax? p0 = some i ∧ i < LABELS.length ∧
        (LABELS.get? i).isSome = true) ∧
    (∀ env st req fl img m st2 effs p0,
      req.files.find? (fun kv => kv.1 == "image") = some fl →
      env.decodeImage fl.2 = .ok img →
      get_model env st = (.ok m, st2, effs) →
      (m.predict (preprocess img)).get? 0 = some p0 →
      1 ≤ p0.length → p0.length ≤ 7 →
      ∃ r, (predict env st req).1 = .ok r ∧ r.status = 200) ∧
    (∃ p0 : List ℚ, 7 < p0.length ∧
      ∃ i, np_argmax? p0 = some i ∧ LABELS.get? i = none) := by
  have key : ∀ p0 : List ℚ, 1 ≤ p0.length → p0.length ≤ 7 →
      ∃ i, np_argmax? p0 = some i ∧ i < LABELS.length ∧
        (LABELS.get? i).isSome = true := by
    intro p0 h1 h7
    match p0, h1 with
    | x :: xs, _ =>
      refine ⟨(argmaxAux xs 1 0 x).1, rfl, ?_⟩
      have hspec := np_argmax_spec (x :: xs) (argmaxAux xs 1 0 x).1 rfl
      have hlt : (argmaxAux xs 1 0 x).1 < LABELS.length := by
        have h7' : (x :: xs).length ≤ LABELS.length := by
          simpa [LABELS] using h7
        exact lt_of_lt_of_le hspec.1 h7'
      refine ⟨hlt, ?_⟩
      rw [List.get?_eq_get hlt]
      rfl
  refine ⟨key, ?_, ?_⟩
  · intro env st req fl img m st2 effs p0 hfind hdec hgm hp h1 h7
    obtain ⟨i, hargmax, hlt, _⟩ := key p0 h1 h7
    have hspec := np_argmax_spec p0 i hargmax
    have hget : p0.get? i = some (listMax p0) := hspec.2.1
    have hlab : LABELS.get? i = some (LABELS.get ⟨i, hlt⟩) :=
      List.get?_eq_get hlt
    refine ⟨⟨200,
      [ ("label", .str (LABELS.get ⟨i, hlt⟩))
      , ("confidence", .str (formatPercent (listMax p0)))
      , ("heatmap_image", .str (gradcamString env m img i)) ]⟩, ?_, rfl⟩
    rw [predict_reaches_success env st req fl img m st2 effs p0 i
      (listMax p0) (LABELS.get ⟨i, hlt⟩) hfind hdec hgm hp hargmax hget hlab]
  · exact ⟨[0, 0, 0, 0, 0, 0, 0, 1], by decide,
      7, by decide, by decide⟩

/-- Claim C1 counterexample: at a concrete request the model's prediction
vector is `[1/10, 9/10, 0, 0, 0, 0, 0]`, whose maximum entry is `9/10`, yet
the returned `confidence` field holds the percent-formatted string
`"90.00%"`, which is not the JSON number `9/10`; the claim that the
returned confidence is the maximum entry itself fails. -/
theorem confidence_not_raw_counterexample :
    (testModel.predict (preprocess testImage)).get? 0 =
      some [mkRat 1 10, mkRat 9 10, 0, 0, 0, 0, 0] ∧
    listMax [mkRat 1 10, mkRat 9 10, 0, 0, 0, 0, 0] = mkRat 9 10 ∧
    (predict testEnv ⟨some testModel⟩ req0).1 =
      .ok ⟨200, [ ("label", JValue.str "Brown Spot")
                , ("confidence", JValue.str "90.00%")
                , ("heatmap_image", JValue.str "") ]⟩ ∧
    getField [ ("label", JValue.str "Brown Spot")
             , ("confidence", JValue.str "90.00%")
             , ("heatmap_image", JValue.str "") ] "confidence" =
      some (JValue.str "90.00%") ∧
    JValue.str "90.00%" ≠ JValue.num (mkRat 9 10) :=
  ⟨rfl, by decide, rfl, rfl, by decide⟩

/-- Claim C1 (amended): on a success response of `/predict`, `label` is the
`LABELS` entry at the first-maximum (argmax) index of the model's
prediction vector for the decoded image, and `confidence` is the maximum
entry of that vector formatted as a two-decimal percentage string. -/
theorem predict_label_and_confidence (env : Env) (st : AppState)
    (req : Request) (fl : String × List Nat) (img : Image) (m : Model)
    (st2 : AppState) (effs : List Effect) (p0 : List ℚ) (i : Nat)
    (hfind : req.files.find? (fun kv => kv.1 == "image") = some fl)
    (hdec : env.decodeImage fl.2 = .ok img)
    (hgm : get_model env st = (.ok m, st2, effs))
    (hp : (m.predict (preprocess img)).get? 0 = some p0)
    (hargmax : np_argmax? p0 = some i)
    (hlt : i < LABELS.length) :
    ∃ r, (predict env st req).1 = .ok r ∧
      getField r.body "label" = some (.str (LABELS.get ⟨i, hlt⟩)) ∧
      getField r.body "confidence" =
        some (.str (formatPercent (listMax p0))) ∧
      p0.get? i = some (listMax p0) ∧
      ∀ x ∈ p0, x ≤ listMax p0 := by
  have hspec := np_argmax_spec p0 i hargmax
  have hget : p0.get? i = some (listMax p0) := hspec.2.1
  have hlab : LABELS.get? i = some (LABELS.get ⟨i, hlt⟩) :=
    List.get?_eq_get hlt
  refine ⟨⟨200,
    [ ("label", .str (LABELS.get ⟨i, hlt⟩))
    , ("confidence", .str (formatPercent (listMax p0)))
    , ("heatmap_image", .str (gradcamString env m img i)) ]⟩,
    ?_, rfl, rfl, hget, hspec.2.2⟩
  rw [predict_reaches_success env st req fl img m st2 effs p0 i
    (listMax p0) (LABELS.get ⟨i, hlt⟩) hfind hdec hgm hp hargmax hget hlab]

/-- Witness for the amended C1 at a concrete request, exercising the lazy
first load. -/
theorem predict_label_and_confidence_witness :
    ∃ r, (predict testEnv ⟨none⟩ req0).1 = .ok r ∧
      getField r.body "label" =
        some (.str (LABELS.get ⟨1, by decide⟩)) ∧
      getField r.body "confidence" =
        some (.str (formatPercent
          (listMax [mkRat 1 10, mkRat 9 10, 0, 0, 0, 0, 0]))) ∧
      ([mkRat 1 10, mkRat 9 10, 0, 0, 0, 0, 0] : List ℚ).get? 1 =
        some (listMax [mkRat 1 10, mkRat 9 10, 0, 0, 0, 0, 0]) ∧
      ∀ x ∈ ([mkRat 1 10, mkRat 9 10, 0, 0, 0, 0, 0] : List ℚ),
        x ≤ listMax [mkRat 1 10, mkRat 9 10, 0, 0, 0, 0, 0] :=
  predict_label_and_confidence testEnv ⟨none⟩ req0 ("image", [1, 2, 3])
    testImage testModel ⟨some testModel⟩ [.loadModel]
    [mkRat 1 10, mkRat 9 10, 0, 0, 0, 0, 0] 1 rfl rfl rfl rfl (by decide) (by decide)

/-- Witness for C10 at a concrete one-entry vector. -/
theorem labels_index_in_bounds_witness :
    ∃ i, np_argmax? [(1 : ℚ)] = some i ∧ i < LABELS.length ∧
      (LABELS.get? i).isSome = true :=
  labels_index_in_bounds.1 [(1 : ℚ)] (by decide) (by decide)

/-- Claim C2: every success response of `/predict` is a JSON object with
exactly the keys `label`, `confidence`, `heatmap_image` in that order, and
the `heatmap_image` value is a string that is either empty or the base64
encoding of the JPEG bytes produced by the heatmap-overlay renderer. -/
theorem success_response_shape (env : Env) (st : AppState) (req : Request)
    (r : HttpResponse) (st2 : AppState) (effs : List Effect)
    (h : predict env st req = (.ok r, st2, effs)) (hs : r.status = 200) :
    r.body.map Prod.fst = ["label", "confidence", "heatmap_image"] ∧
    ∃ s, getField r.body "heatmap_image" = some (.str s) ∧
      (s = "" ∨ ∃ a hmap jb, env.renderHeatmap a hmap = .ok jb ∧
        s = base64encode jb) := by
  obtain ⟨fl, imgRaw, m, effs0, p0, i, c, lab, hfind, hdec, hgm, hp,
    hargmax, hc, hlab, hr, heffs⟩ :=
    predict_ok_200_inv env st req r st2 effs h hs
  subst hr
  refine ⟨rfl, gradcamString env m imgRaw i, rfl, ?_⟩
  unfold gradcamString
  split
  · exact Or.inl rfl
  · split
    · exact Or.inl rfl
    · rename_i jb heq
      exact Or.inr ⟨_, _, jb, heq, rfl⟩

/-- Witness for C2 at a concrete request whose Grad-CAM stage fails. -/
theorem success_response_shape_witness :
    ([ ("label", JValue.str "Brown Spot")
     , ("confidence", JValue.str "90.00%")
     , ("heatmap_image", JValue.str "") ] :
        List (String × JValue)).map Prod.fst =
      ["label", "confidence", "heatmap_image"] ∧
    ∃ s, getField
        [ ("label", JValue.str "Brown Spot")
        , ("confidence", JValue.str "90.00%")
        , ("heatmap_image", JValue.str "") ] "heatmap_image" =
        some (.str s) ∧
      (s = "" ∨ ∃ a hmap jb, testEnv.renderHeatmap a hmap = .ok jb ∧
        s = base64encode jb) :=
  success_response_shape testEnv ⟨some testModel⟩ req0
    ⟨200, [ ("label", JValue.str "Brown Spot")
          , ("confidence", JValue.str "90.00%")
          , ("heatmap_image", JValue.str "") ]⟩
    ⟨some testModel⟩ [Effect.decode, Effect.inference] rfl rfl

/-- Claim C3: when the Grad-CAM stage raises (either the heatmap computation
or the overlay rendering/encoding), the exception is caught: wherever the
environment that differs only in the Grad-CAM stages produces a success
response, the failing run still returns a success response with the same
state and effects, `heatmap_image` equal to the empty string, and `label`
and `confidence` exactly as in the succeeding run. -/
theorem gradcam_failure_degrades (e1 e2 : Env) (st : AppState)
    (req : Request)
    (hd : e1.decodeImage = e2.decodeImage)
    (hl : e1.loadModel = e2.loadModel)
    (hfail : (∀ a m lay i, ∃ s, e1.gradcam a m lay i = .error s) ∨
             (∀ a hmap, ∃ s, e1.renderHeatmap a hmap = .error s)) :
    ∀ r2 st2 effs, predict e2 st req = (.ok r2, st2, effs) →
      r2.status = 200 →
      ∃ r1, predict e1 st req = (.ok r1, st2, effs) ∧
        getField r1.body "heatmap_image" = some (.str "") ∧
        getField r1.body "label" = getField r2.body "label" ∧
        getField r1.body "confidence" = getField r2.body "confidence" := by
  intro r2 st2 effs h2 hs2
  obtain ⟨fl, imgRaw, m, effs0, p0, i, c, lab, hfind, hdec, hgm, hp,
    hargmax, hc, hlab, hr2, heffs⟩ :=
    predict_ok_200_inv e2 st req r2 st2 effs h2 hs2
  have hdec1 : e1.decodeImage fl.2 = .ok imgRaw := by rw [hd]; exact hdec
  have hgm1 : get_model e1 st = (.ok m, st2, effs0) := by
    rw [get_model_congr e1 e2 st hl]; exact hgm
  have hstr : gradcamString e1 m imgRaw i = "" := by
    rcases hfail with hf | hf
    · obtain ⟨s, hsg⟩ := hf (preprocess imgRaw) m LAST_CONV_LAYER_NAME i
      unfold gradcamString
      rw [hsg]
    · unfold gradcamString
      split
      · rfl
      · rename_i heatmap heq
        obtain ⟨s, hsr⟩ := hf
          (img_to_array (PILresize (convertRGB imgRaw) 224 224)) heatmap
        rw [hsr]
  have h1 := predict_reaches_success e1 st req fl imgRaw m st2 effs0 p0 i c
    lab hfind hdec1 hgm1 hp hargmax hc hlab
  rw [hstr] at h1
  subst hr2
  subst heffs
  exact ⟨_, h1, rfl, rfl, rfl⟩

/-- Witness for C3: the all-failing Grad-CAM environment degrades the
concrete success response of the succeeding environment to an empty
heatmap with identical label and confidence. -/
theorem gradcam_failure_degrades_witness :
    ∃ r1, predict testEnv ⟨some testModel⟩ req0 =
        (.ok r1, ⟨some testModel⟩, [Effect.decode, Effect.inference]) ∧
      getField r1.body "heatmap_image" = some (.str "") ∧
      getField r1.body "label" =
        getField [ ("label", JValue.str "Brown Spot")
                 , ("confidence", JValue.str "90.00%")
                 , ("heatmap_image", JValue.str "/9j/") ] "label" ∧
      getField r1.body "confidence" =
        getField [ ("label", JValue.str "Brown Spot")
                 , ("confidence", JValue.str "90.00%")
                 , ("heatmap_image", JValue.str "/9j/") ] "confidence" :=
  gradcam_failure_degrades testEnv testEnvOk ⟨some testModel⟩ req0 rfl rfl
    (Or.inl fun _ _ _ _ => ⟨"gradcam boom", rfl⟩)
    ⟨200, [ ("label", JValue.str "Brown Spot")
          , ("confidence", JValue.str "90.00%")
          , ("heatmap_image", JValue.str "/9j/") ]⟩
    ⟨some testModel⟩ [Effect.decode, Effect.inference] rfl rfl

/-- Claim C7: once the model is loaded, the lazy handler of `app.py` and the
spec-modelled eager copy (which reads the already-loaded handle directly)
are behaviorally equivalent on every request: same framework result, same
effects, and the lazy copy leaves its global state unchanged. -/
theorem lazy_eager_equiv (env : Env) (st : AppState) (req : Request)
    (m : Model) (h : st.model = some m) :
    predict env st req =
      ((predict_eager env m req).1, st, (predict_eager env m req).2) := by
  obtain ⟨om⟩ := st
  have h' : om = some m := h
  subst h'
  have hgm : get_model env ⟨some m⟩ = (.ok m, ⟨some m⟩, []) := rfl
  rcases hfind : req.files.find? (fun kv => kv.1 == "image") with _ | fl
  · simp [predict, predict_eager, hfind]
  · rcases hdec : env.decodeImage fl.2 with e | imgRaw
    · simp [predict, predict_eager, hfind, hdec]
    · rcases hp : (m.predict (expand_dims (img_to_array
          (PILresize (convertRGB imgRaw) 224 224))))[0]? with _ | p0
      · simp [predict, predict_eager, hfind, hdec, hgm, hp]
      · rcases hargmax : np_argmax? p0 with _ | i
        · simp [predict, predict_eager, hfind, hdec, hgm, hp, hargmax]
        · rcases hc : p0[i]? with _ | c
          · simp [predict, predict_eager, hfind, hdec, hgm, hp, hargmax, hc]
          · rcases hlab : LABELS[i]? with _ | lab
            · simp [predict, predict_eager, hfind, hdec, hgm, hp, hargmax,
                hc, hlab]
            · simp [predict, predict_eager, hfind, hdec, hgm, hp, hargmax,
                hc, hlab]

/-- Witness for C7 at a concrete request with the model already loaded. -/
theorem lazy_eager_equiv_witness :
    predict testEnv ⟨some testModel⟩ req0 =
      ((predict_eager testEnv testModel req0).1, ⟨some testModel⟩,
       (predict_eager testEnv testModel req0).2) :=
  lazy_eager_equiv testEnv ⟨some testModel⟩ req0 testModel rfl

end RiceApp
